import Mathlib

/-!
Verification of the `typed-uri-template` library (RFC 6570 URI templates).

The development shallowly embeds the two source files:
* `src/matchers.ts` — the built-in value matchers (`asString`, `asNumber`,
  `asBoolean` and their list/record variants);
* `src/index.ts` — the template compiler (`templateParser`), the expansion
  engine (`URITemplate.serialize`), the `toString` debug form and the two
  escaping functions (`escape`, `doNotEscape`).

JavaScript strings are modelled as Lean `String`/`List Char` (code points);
all template and parameter strings of interest are ASCII, where the two
notions agree with JS UTF-16 indexing.  Thrown `YError`s are modelled as
`Except` errors carrying the error-code string (the extra positional
arguments of `YError` are dropped: no verified property depends on them).
-/

namespace UriTemplate

/-! ## Value matchers (`src/matchers.ts`) -/

/-- The three matcher shapes (`type` field of a `ParameterMatcher`). -/
inductive MatcherType where
  | value
  | list
  | record
deriving DecidableEq

/-- Base (element-level) parameter values.  The serialization claims only
exercise string-valued parameters, so the numeric element kind is omitted
from the value universe; boolean values are kept to mirror `typeof`
branching. -/
inductive BaseVal where
  | vstr (s : String)
  | vbool (b : Bool)
deriving DecidableEq

/-- JS-style stringification of a boolean (`b.toString()`). -/
def jsBoolToString (b : Bool) : String :=
  if b then "true" else "false"

/-- A value matcher, keeping only the members the expansion engine reads:
`serialize`, `isValid` and `type` (`parse` is never called by
`URITemplate.serialize`; the built-in `parse` functions are embedded
separately below). -/
structure PMatcher where
  serialize : BaseVal → String
  isValid : BaseVal → Bool
  mtype : MatcherType

/-- `asString` from `src/matchers.ts`: identity serialize, `isValid` is
`typeof s === 'string'`, scalar shape.  (`serialize` is only ever applied
to values that passed `isValid`; on a boolean it returns the JS string
coercion.) -/
def asString : PMatcher where
  serialize := fun v => match v with
    | .vstr s => s
    | .vbool b => jsBoolToString b
  isValid := fun v => match v with
    | .vstr _ => true
    | .vbool _ => false
  mtype := .value

/-- `asStrings`: `{ ...asString, type: 'list' }`. -/
def asStrings : PMatcher :=
  { asString with mtype := .list }

/-- `asKeyedStrings`: `{ ...asString, type: 'record' }`. -/
def asKeyedStrings : PMatcher :=
  { asString with mtype := .record }

/-- `asBoolean.parse` from `src/matchers.ts`, verbatim:

```ts
parse: (s) => {
  if (['true', 'false'].includes(s)) {
    throw new YError('E_CANNOT_PARSE_BOOLEAN', s);
  }
  return s === 'true';
}
``` -/
def asBooleanParse (s : String) : Except String Bool :=
  if s = "true" ∨ s = "false" then Except.error "E_CANNOT_PARSE_BOOLEAN"
  else Except.ok (s == "true")

/-- JS numbers as produced by `parseFloat`: a finite value (modelled as an
exact rational — rounding to IEEE 754 doubles is irrelevant to the verified
claims, which are about which error branches execute) or an infinity. -/
inductive JSNum where
  | finite (q : ℚ)
  | infinite (neg : Bool)
deriving DecidableEq

/-- Base-10 value of a digit string. -/
def digitsToNat (l : List Char) : Nat :=
  l.foldl (fun n c => n * 10 + (c.toNat - 48)) 0

/-- The common JS whitespace characters skipped by `parseFloat` (the full
`StrWhiteSpace` set also has exotic Unicode spaces; only these arise in the
claims). -/
def isJsWhitespace (c : Char) : Bool :=
  c = ' ' || c = '\t' || c = '\n' || c = '\r'

/-- Exponent part of a JS float literal: optional sign then digits; an
empty digit run means the exponent part is not consumed (`parseFloat "1e"`
is `1`). -/
def readExp (l : List Char) : Int :=
  let signAndRest : Bool × List Char :=
    match l with
    | '-' :: rest => (true, rest)
    | '+' :: rest => (false, rest)
    | _ => (false, l)
  let ds := signAndRest.2.takeWhile Char.isDigit
  if ds = [] then 0
  else if signAndRest.1 then -(digitsToNat ds : Int) else (digitsToNat ds : Int)

/-- Model of the JS builtin `parseFloat`: skip leading whitespace, optional
sign, then the longest prefix that is `Infinity` or a decimal literal
(`digits [. digits] [e|E [sign] digits]` with at least one digit before or
after the point); trailing garbage is ignored; `none` models `NaN`. -/
def parseFloatModel (s : String) : Option JSNum :=
  let l := s.toList.dropWhile isJsWhitespace
  let signAndRest : Bool × List Char :=
    match l with
    | '-' :: rest => (true, rest)
    | '+' :: rest => (false, rest)
    | _ => (false, l)
  let neg := signAndRest.1
  let l1 := signAndRest.2
  if "Infinity".toList.isPrefixOf l1 then some (.infinite neg)
  else
    let intDigits := l1.takeWhile Char.isDigit
    let l2 := l1.drop intDigits.length
    let fracAndRest : List Char × List Char :=
      match l2 with
      | '.' :: rest => (rest.takeWhile Char.isDigit,
                        rest.drop (rest.takeWhile Char.isDigit).length)
      | _ => ([], l2)
    let fracDigits := fracAndRest.1
    let l3 := fracAndRest.2
    if intDigits = [] ∧ fracDigits = [] then none
    else
      let expVal : Int :=
        match l3 with
        | 'e' :: rest => readExp rest
        | 'E' :: rest => readExp rest
        | _ => 0
      let mant : ℚ :=
        (digitsToNat intDigits : ℚ) +
          (digitsToNat fracDigits : ℚ) / ((10 : ℚ) ^ fracDigits.length)
      some (.finite ((if neg then -mant else mant) * (10 : ℚ) ^ expVal))

/-- `String.prototype.toString` on a JS string is the identity; the source
applies `.toString()` to the *input string* `s` (not the parsed number). -/
def stringToString (s : String) : String := s

/-- `asNumber.parse` from `src/matchers.ts`, verbatim:

```ts
parse: (s) => {
  const x = parseFloat(s);
  if (Number.isNaN(parseFloat(s))) { throw new YError('E_NOT_A_NUMBER', s); }
  if (s.toString() !== s) {
    throw new YError('E_NOT_A_CANONICAL_NUMBER_REPRESENTATION', s, s.toString());
  }
  return x;
}
``` -/
def asNumberParse (s : String) : Except String JSNum :=
  match parseFloatModel s with
  | none => Except.error "E_NOT_A_NUMBER"
  | some x =>
    if stringToString s ≠ s then
      Except.error "E_NOT_A_CANONICAL_NUMBER_REPRESENTATION"
    else Except.ok x

/-- Whether a parse outcome is the canonical-representation error. -/
def isCanonicalError : Except String JSNum → Bool
  | .error e => e == "E_NOT_A_CANONICAL_NUMBER_REPRESENTATION"
  | .ok _ => false

/-! ## Escaping subsystem (`escape` / `doNotEscape`, `src/index.ts`) -/

/-- Upper-case hexadecimal digit of a value `< 16`. -/
def hexDigitChar (n : Nat) : Char :=
  if n < 10 then Char.ofNat (48 + n) else Char.ofNat (55 + n)

/-- UTF-8 bytes of a code point (as used by `encodeURI*` when
percent-encoding). -/
def utf8Bytes (c : Char) : List Nat :=
  let n := c.toNat
  if n < 0x80 then [n]
  else if n < 0x800 then
    [0xC0 + n / 0x40, 0x80 + n % 0x40]
  else if n < 0x10000 then
    [0xE0 + n / 0x1000, 0x80 + (n / 0x40) % 0x40, 0x80 + n % 0x40]
  else
    [0xF0 + n / 0x40000, 0x80 + (n / 0x1000) % 0x40,
     0x80 + (n / 0x40) % 0x40, 0x80 + n % 0x40]

/-- `%XX` encoding of one byte. -/
def percentByte (b : Nat) : List Char :=
  ['%', hexDigitChar (b / 16), hexDigitChar (b % 16)]

/-- Percent-encoding of all UTF-8 bytes of a character. -/
def percentEncodeChar (c : Char) : List Char :=
  ((utf8Bytes c).map percentByte).flatten

/-- The set left intact by the JS builtin `encodeURIComponent`:
`ALPHA / DIGIT / - _ . ! ~ * ' ( )`.  (`Char.ofNat 39` is the apostrophe.) -/
def uriComponentUnescaped (c : Char) : Bool :=
  c.isAlphanum || c = '-' || c = '_' || c = '.' || c = '!' || c = '~' ||
    c = '*' || c = Char.ofNat 39 || c = '(' || c = ')'

/-- The set left intact by the JS builtin `encodeURI`: the
`encodeURIComponent` set plus `; / ? : @ & = + $ , #`.  Note that `[` and
`]` are *not* in this set (ECMAScript's `uriReserved` predates RFC 3986). -/
def uriUnescaped (c : Char) : Bool :=
  uriComponentUnescaped c || c = ';' || c = '/' || c = '?' || c = ':' ||
    c = '@' || c = '&' || c = '=' || c = '+' || c = '$' || c = ',' || c = '#'

/-- Model of the JS builtin `encodeURIComponent`. -/
def encodeURIComponent (s : String) : String :=
  String.mk ((s.toList.map (fun c =>
    if uriComponentUnescaped c then [c] else percentEncodeChar c)).flatten)

/-- Model of the JS builtin `encodeURI`. -/
def encodeURI (s : String) : String :=
  String.mk ((s.toList.map (fun c =>
    if uriUnescaped c then [c] else percentEncodeChar c)).flatten)

/-- `escape` from `src/index.ts`:
`encodeURIComponent(str).replace(/!/g, '%21')`. -/
def escape (s : String) : String :=
  String.mk (((encodeURIComponent s).toList.map (fun c =>
    if c = '!' then ['%', '2', '1'] else [c])).flatten)

/-- The global replacement `/%25[0-9][0-9]/g → '%' + suffix` performed by
`doNotEscape`: scan left to right; on a match emit the re-decoded triplet
and continue after it, otherwise emit one character and advance. -/
def reDecodeChars : List Char → List Char
  | '%' :: '2' :: '5' :: d1 :: d2 :: rest =>
    if d1.isDigit && d2.isDigit then '%' :: d1 :: d2 :: reDecodeChars rest
    else
      -- the regex advances one position on a failed match attempt; the next
      -- two positions hold '2' and '5', which can never begin a `%25dd`
      -- match, so scanning may resume at `d1`
      '%' :: '2' :: '5' :: reDecodeChars (d1 :: d2 :: rest)
  | c :: rest => c :: reDecodeChars rest
  | [] => []

/-- `doNotEscape` from `src/index.ts`:

```ts
encodeURI(str).replace(/%25[0-9][0-9]/g,
  (doubleEncoded) => '%' + doubleEncoded.substring(3));
``` -/
def doNotEscape (s : String) : String :=
  String.mk (reDecodeChars (encodeURI s).toList)

/-! ## The modifier table (`MODIFIERS_SPECS`, `src/index.ts`) -/

/-- One row of `MODIFIERS_SPECS` / `DEFAULT_SPECS`. -/
structure ModSpec where
  prefixStr : String
  separator : String
  noEscape : Bool
  named : Bool
  trimEmptyString : Bool
deriving DecidableEq

/-- `DEFAULT_SPECS` from `src/index.ts`. -/
def DEFAULT_SPECS : ModSpec :=
  { prefixStr := "", separator := ",", noEscape := false, named := false,
    trimEmptyString := false }

/-- `MODIFIERS` from `src/index.ts`. -/
def MODIFIERS : List Char := ['+', '.', '/', '#', ';', '?', '&']

/-- `MODIFIERS_SPECS` from `src/index.ts`; total on `Char` with the default
row on characters outside `MODIFIERS` (the parser only ever stores modifier
characters drawn from `MODIFIERS`). -/
def MODIFIERS_SPECS (c : Char) : ModSpec :=
  if c = '+' then
    { prefixStr := "", separator := ",", noEscape := true, named := false,
      trimEmptyString := false }
  else if c = '#' then
    { prefixStr := "#", separator := ",", noEscape := true, named := false,
      trimEmptyString := false }
  else if c = '.' then
    { prefixStr := ".", separator := ".", noEscape := false, named := false,
      trimEmptyString := false }
  else if c = '/' then
    { prefixStr := "/", separator := "/", noEscape := false, named := false,
      trimEmptyString := false }
  else if c = ';' then
    { prefixStr := ";", separator := ";", noEscape := false, named := true,
      trimEmptyString := true }
  else if c = '?' then
    { prefixStr := "?", separator := "&", noEscape := false, named := true,
      trimEmptyString := false }
  else if c = '&' then
    { prefixStr := "&", separator := "&", noEscape := false, named := true,
      trimEmptyString := false }
  else DEFAULT_SPECS

/-! ## The template compiler (`templateParser`, `src/index.ts`) -/

/-- A finalized substitution variable (`variables` entries of a
`SubstitutionPart`).  In the source `explode`/`truncate` are optional
fields only ever set to `true` / a parsed non-negative integer, so field
presence is modelled as `explode = true` / `truncate = some n`. -/
structure TVariable where
  name : String
  explode : Bool
  truncate : Option Nat
deriving DecidableEq

/-- The matcher map supplied to the compiler (`Record<string,
ParameterMatcher>`). -/
def Matchers : Type := List (String × PMatcher)

/-- `matchers[name]` (JS property read; `none` is `undefined`, i.e. the
falsy branch of `!matchers[variable.name]`). -/
def lookupMatcher (matchers : Matchers) (name : String) : Option PMatcher :=
  List.lookup name matchers

/-- A compiled template part (`TemplatePart` from `src/index.ts`):
a literal span or a substitution with parallel `variables`/`matchers`. -/
inductive TemplatePart where
  | literal (index : Nat) (value : String)
  | subst (index : Nat) (modifier : Option Char) (vars : List TVariable)
      (matchers : List PMatcher)

/-- The in-progress `currentPart` of the scanner: a literal with its
accumulated text, or a substitution with its modifier and the name buffers
of its variables (the last buffer is the one being filled). -/
inductive CurPart where
  | literal (index : Nat) (value : List Char)
  | subst (index : Nat) (modifier : Option Char) (vars : List (List Char))

/-- The name buffer of the last variable
(`currentPart.variables[currentPart.variables.length - 1].name`). -/
def lastName (vars : List (List Char)) : List Char :=
  vars.getLastD []

/-- Append one character to the last variable's name buffer. -/
def appendToLast (vars : List (List Char)) (c : Char) : List (List Char) :=
  match vars with
  | [] => [[c]]
  | [v] => [v ++ [c]]
  | v :: rest => v :: appendToLast rest c

/-- JS `String.prototype.split(':')`. -/
def splitOnColon : List Char → List (List Char)
  | [] => [[]]
  | c :: rest =>
    if c = ':' then [] :: splitOnColon rest
    else
      match splitOnColon rest with
      | s :: tail => (c :: s) :: tail
      | [] => [[c]]

/-- The truncate-suffix grammar `/^[0-9]+$/`. -/
def isDigits (l : List Char) : Bool :=
  !l.isEmpty && l.all Char.isDigit

/-- Body of the variable-name grammar
`/^(?:[A-Za-z0-9_]|%[0-9]{2}){1,}$/` (each unit is an alphanumeric or
underscore, or `%` followed by two decimal digits). -/
def validNameBody : List Char → Bool
  | [] => true
  | c :: rest =>
    if c.isAlphanum || c = '_' then validNameBody rest
    else if c = '%' then
      match rest with
      | d1 :: d2 :: rest2 => d1.isDigit && d2.isDigit && validNameBody rest2
      | _ => false
    else false

/-- The full variable-name check (the `{1,}` quantifier rejects the empty
name). -/
def validName (l : List Char) : Bool :=
  !l.isEmpty && validNameBody l

/-- The truncate-suffix handling of `templateParser` (lines 310–321 of
`src/index.ts`): if the name contains `:`, the segment
`name.split(':')[1]` (between the first and second `:`) must match
`/^[0-9]+$/`, its value becomes `truncate` and `name.split(':')[0]` the
new name. -/
def applyTruncate (name : List Char) : Except String (List Char × Option Nat) :=
  if name.contains ':' then
    if isDigits ((splitOnColon name).getD 1 []) then
      Except.ok ((splitOnColon name).getD 0 [],
        some (digitsToNat ((splitOnColon name).getD 1 [])))
    else Except.error "E_BAD_SUBSTITUTION_TRUNCATE"
  else Except.ok (name, none)

/-- Error-propagating map (the behavior of a JS `Array.prototype.map`
whose callback can throw: the first throw aborts the whole call). -/
def mapExcept {a b : Type} (f : a → Except String b) : List a → Except String (List b)
  | [] => Except.ok []
  | x :: rest =>
    match f x with
    | .error e => Except.error e
    | .ok y =>
      match mapExcept f rest with
      | .error e => Except.error e
      | .ok ys => Except.ok (y :: ys)

/-- Per-variable finalization performed in the `}` handler of
`templateParser`, in source order: strip a trailing `*` (sets `explode`),
apply the truncate suffix, reject `explode`+`truncate`, validate the name
grammar and resolve the matcher. -/
def processVariable (matchers : Matchers) (rawName : List Char) :
    Except String (TVariable × PMatcher) :=
  let explode := rawName.getLast? == some '*'
  let name1 := if explode then rawName.dropLast else rawName
  match applyTruncate name1 with
  | .error e => .error e
  | .ok (name2, truncate) =>
    if truncate.isSome && explode then
      Except.error "E_BAD_SUBSTITUTION_TRUNCATE"
    else if !validName name2 then
      Except.error "E_BAD_SUBSTITUTION_NAME"
    else
      match lookupMatcher matchers (String.mk name2) with
      | none => Except.error "E_NO_SUBSTITUTION_MATCHER_FOUND"
      | some m =>
        Except.ok ({ name := String.mk name2, explode := explode,
                     truncate := truncate }, m)

/-- The scanner loop of `templateParser`: one step per character, tracking
the character offset, the in-progress part and the completed parts (pushed
in order). -/
def templateParserAux (matchers : Matchers) :
    List Char → Nat → Option CurPart → List TemplatePart →
    Except String (List TemplatePart)
  | [], _, cur, parts =>
    match cur with
    | none => Except.ok parts
    | some (.literal i v) => Except.ok (parts ++ [TemplatePart.literal i (String.mk v)])
    | some (.subst _ _ _) => Except.error "E_EXPECTED_SUBSTITUTION_CLOSING"
  | c :: rest, index, cur, parts =>
    if c = '{' then
      match cur with
      | some (.subst _ _ _) => Except.error "E_BAD_SUBSTITUTION_OPENING"
      | some (.literal i v) =>
        templateParserAux matchers rest (index + 1)
          (some (.subst index none [[]]))
          (parts ++ [TemplatePart.literal i (String.mk v)])
      | none =>
        templateParserAux matchers rest (index + 1)
          (some (.subst index none [[]])) parts
    else if c = '}' then
      match cur with
      | some (.subst i mod vars) =>
        if lastName vars = [] then Except.error "E_BAD_SUBSTITUTION_NAME"
        else
          match mapExcept (processVariable matchers) vars with
          | .error e => Except.error e
          | .ok pairs =>
            templateParserAux matchers rest (index + 1) none
              (parts ++ [TemplatePart.subst i mod (pairs.map Prod.fst)
                (pairs.map Prod.snd)])
      | _ => Except.error "E_UNEXPECTED_SUBSTITUTION_CLOSING"
    else
      match cur with
      | some (.subst i mod vars) =>
        if mod.isNone && (vars.headD []).isEmpty && MODIFIERS.contains c then
          templateParserAux matchers rest (index + 1)
            (some (.subst i (some c) vars)) parts
        else if c = ',' then
          if lastName vars = [] then Except.error "E_EMPTY_SUBSTITUTION_NAME"
          else
            templateParserAux matchers rest (index + 1)
              (some (.subst i mod (vars ++ [[]]))) parts
        else
          templateParserAux matchers rest (index + 1)
            (some (.subst i mod (appendToLast vars c))) parts
      | some (.literal i v) =>
        templateParserAux matchers rest (index + 1)
          (some (.literal i (v ++ [c]))) parts
      | none =>
        templateParserAux matchers rest (index + 1)
          (some (.literal index [c])) parts

/-- `templateParser` from `src/index.ts`. -/
def templateParser (template : String) (matchers : Matchers) :
    Except String (List TemplatePart) :=
  templateParserAux matchers template.toList 0 none []

/-! ## The expansion engine (`URITemplate.serialize`, `src/index.ts`) -/

/-- A runtime parameter value: a scalar, a list, a record (ordered
key/value pairs, JS insertion order), or null/undefined. -/
inductive ParamVal where
  | scalar (v : BaseVal)
  | list (vs : List BaseVal)
  | record (kvs : List (String × BaseVal))
  | undef
deriving DecidableEq

/-- The parameter map passed to `serialize`. -/
def Params : Type := List (String × ParamVal)

/-- `params[name]` (a missing property reads as `undefined`). -/
def getParam (params : Params) (name : String) : ParamVal :=
  match List.lookup name params with
  | some v => v
  | none => ParamVal.undef

/-- `typeof params[name] === 'object'` (after the null/undefined check). -/
def isObjectVal : ParamVal → Bool
  | .scalar _ => false
  | .list _ => true
  | .record _ => true
  | .undef => false

/-- `Array.isArray(params[name])`. -/
def isArrayVal : ParamVal → Bool
  | .list _ => true
  | _ => false

/-- The flattened element list of a value: scalar → singleton, list →
elements in order, record → values in key order
(`Object.keys(...).map((key) => params[...][key])`). -/
def flattenVal : ParamVal → List BaseVal
  | .scalar v => [v]
  | .list vs => vs
  | .record kvs => kvs.map Prod.snd
  | .undef => []

/-- `Object.keys(params[name])` for records (empty otherwise). -/
def recordKeys : ParamVal → List String
  | .record kvs => kvs.map Prod.fst
  | _ => []

/-- The key-interleaving reduce for non-exploded records (lines 175–187 of
`src/index.ts`): `[...acc, keys[index], truncatedValue]`. -/
def interleaveKeys (keys : List String) (truncatedValues : List String) :
    List String :=
  truncatedValues.enum.foldl
    (fun acc iv => acc ++ [keys.getD iv.1 "", iv.2]) []

/-- The `variableNames` array (lines 195–212 of `src/index.ts`): one entry
per truncated value; a `name=` chunk is produced when the modifier is named
or the variable is an exploded record, and only at index 0 unless exploded;
`=` is dropped when `trimEmptyString` holds and the value is empty. -/
def mkVariableNames (spec : ModSpec) (v : TVariable) (keys : List String)
    (valueIsARecord : Bool) (isEmpty : Bool) (n : Nat) : List String :=
  (List.range n).map fun i =>
    let variableName :=
      if valueIsARecord && v.explode then keys.getD i "" else v.name
    if (spec.named || (v.explode && valueIsARecord)) &&
        (decide (i = 0) || v.explode) then
      (if spec.noEscape then doNotEscape variableName else escape variableName)
        ++ (if spec.trimEmptyString && isEmpty then "" else "=")
    else ""

/-- The final reduce over `escapedValues` (lines 218–225 of
`src/index.ts`): separator between elements (`separator` if exploded, `,`
otherwise), then `variableNames[index] || ''`, then the value. -/
def joinEscapedValues (explode : Bool) (separator : String)
    (variableNames escapedValues : List String) : String :=
  escapedValues.enum.foldl
    (fun str ie =>
      str ++ (if 0 < ie.1 then (if explode then separator else ",") else "")
        ++ variableNames.getD ie.1 "" ++ ie.2) ""

/-- The per-variable body of `URITemplate.serialize` (lines 111–226 of
`src/index.ts`); `none` models the `null` contribution (skipped
variables). -/
def serializeVariable (spec : ModSpec) (params : Params) (v : TVariable)
    (m : PMatcher) : Except String (Option String) :=
  let pv := getParam params v.name
  if pv = ParamVal.undef then Except.ok none
  else
    let valueIsAnObject := isObjectVal pv
    let valueIsAnArray := valueIsAnObject && isArrayVal pv
    let valueIsARecord := valueIsAnObject && !valueIsAnArray
    if m.mtype = MatcherType.record ∧ ¬valueIsARecord = true then
      Except.error "E_EXPECTED_A_RECORD"
    else if m.mtype = MatcherType.list ∧ ¬valueIsAnArray = true then
      Except.error "E_EXPECTED_A_LIST"
    else if m.mtype = MatcherType.value ∧ valueIsAnObject = true then
      Except.error "E_EXPECTED_A_LITERAL_VALUE"
    else
      let values := flattenVal pv
      match mapExcept (fun value =>
          if !m.isValid value then Except.error "E_INVALID_VARIABLE_VALUE"
          else Except.ok (m.serialize value)) values with
      | .error e => Except.error e
      | .ok serializedValues =>
        let truncatedValues := serializedValues.map fun sv =>
          match v.truncate with
          | some n => sv.take n
          | none => sv
        let keys := recordKeys pv
        let escapedValues :=
          (if valueIsARecord && !v.explode then
            interleaveKeys keys truncatedValues
          else truncatedValues).map fun tv =>
            if spec.noEscape then doNotEscape tv else escape tv
        let isEmpty :=
          truncatedValues.isEmpty || truncatedValues.all (· == "")
        let variableNames :=
          mkVariableNames spec v keys valueIsARecord isEmpty
            truncatedValues.length
        if isEmpty && valueIsARecord then Except.ok none
        else
          Except.ok (some (joinEscapedValues v.explode spec.separator
            variableNames escapedValues))

/-- The `part.variables.map(...)` loop of `URITemplate.serialize`, over the
parallel variable/matcher pairs (errors abort the whole expansion, as a JS
throw does). -/
def serializeVariables (spec : ModSpec) (params : Params) :
    List (TVariable × PMatcher) → Except String (List (Option String))
  | [] => Except.ok []
  | (v, m) :: rest =>
    match serializeVariable spec params v m with
    | .error e => Except.error e
    | .ok r =>
      match serializeVariables spec params rest with
      | .error e => Except.error e
      | .ok rs => Except.ok (r :: rs)

/-- JS `Array.prototype.join(separator)`. -/
def jsJoin (separator : String) : List String → String
  | [] => ""
  | [x] => x
  | x :: rest => x ++ separator ++ jsJoin separator rest

/-- One substitution part's output (`.filter((a) => a !== null)`, the empty
check and the prefix, lines 227–233 of `src/index.ts`). -/
def serializeSubst (spec : ModSpec) (params : Params)
    (pairs : List (TVariable × PMatcher)) : Except String String :=
  match serializeVariables spec params pairs with
  | .error e => Except.error e
  | .ok rs =>
    let results := rs.filterMap id
    if results.isEmpty then Except.ok ""
    else Except.ok (spec.prefixStr ++ jsJoin spec.separator results)

/-- `URITemplate.serialize` over an already-compiled part list. -/
def serializeParts (params : Params) :
    List TemplatePart → Except String String
  | [] => Except.ok ""
  | part :: rest =>
    let head :=
      match part with
      | .literal _ value => Except.ok value
      | .subst _ modifier vars matchers =>
        let spec :=
          match modifier with
          | some c => MODIFIERS_SPECS c
          | none => DEFAULT_SPECS
        serializeSubst spec params (vars.zip matchers)
    match head with
    | .error e => Except.error e
    | .ok s =>
      match serializeParts params rest with
      | .error e => Except.error e
      | .ok srest => Except.ok (s ++ srest)

/-- Compile a template and expand it: `new URITemplate(template,
matchers).serialize(params)`. -/
def serializeTemplate (template : String) (matchers : Matchers)
    (params : Params) : Except String String :=
  match templateParser template matchers with
  | .error e => Except.error e
  | .ok parts => serializeParts params parts

/-! ## `URITemplate.toString` (`src/index.ts`) -/

/-- The `/"/g → \"` replacement of `URITemplate.toString`. -/
def escapeQuotesChars : List Char → List Char
  | [] => []
  | c :: rest =>
    if c = '"' then '\\' :: '"' :: escapeQuotesChars rest
    else c :: escapeQuotesChars rest

/-- `URITemplate.toString`:
`` `["${this._template.replace(/"/g, '\\"')}" URITemplate]` ``. -/
def uriTemplateToString (template : String) : String :=
  String.mk (('[' :: '"' :: escapeQuotesChars template.toList) ++
    ('"' :: " URITemplate]".toList))

/-! ## Helper lemmas -/

/-- `split(':')` is the identity partition on a colon-free string. -/
theorem splitOnColon_no_colon (l : List Char) (h : l.contains ':' = false) :
    splitOnColon l = [l] := by
  induction l with
  | nil => rfl
  | cons c rest ih =>
    simp only [List.contains_cons, Bool.or_eq_false_iff] at h
    have hc : ¬c = ':' := by
      intro hc
      subst hc
      simp at h
    rw [splitOnColon, if_neg hc, ih h.2]

/-- `split(':')` peels off a colon-free prefix before the first colon. -/
theorem splitOnColon_append (pre rest : List Char)
    (h : pre.contains ':' = false) :
    splitOnColon (pre ++ ':' :: rest) = pre :: splitOnColon rest := by
  induction pre with
  | nil =>
    simp only [List.nil_append]
    rw [splitOnColon, if_pos rfl]
  | cons c pre2 ih =>
    simp only [List.contains_cons, Bool.or_eq_false_iff] at h
    have hc : ¬c = ':' := by
      intro hc
      subst hc
      simp at h
    simp only [List.cons_append]
    rw [splitOnColon, if_neg hc, ih h.2]

/-- A string with a colon in it `contains ':'`. -/
theorem contains_colon_append (pre rest : List Char) :
    (pre ++ ':' :: rest).contains ':' = true := by
  induction pre with
  | nil => simp [List.contains_cons]
  | cons c pre2 ih => simp [List.contains_cons, ih]

/-- The quote-escaping map never outputs a string starting with `"`. -/
theorem escapeQuotesChars_head_ne (l : List Char) :
    (escapeQuotesChars l).head? ≠ some '"' := by
  cases l with
  | nil => simp [escapeQuotesChars]
  | cons c rest =>
    by_cases hc : c = '"'
    · simp [escapeQuotesChars, hc]
    · simp [escapeQuotesChars, hc]

/-- The quote-escaping map of `URITemplate.toString` is injective. -/
theorem escapeQuotesChars_injective (l1 l2 : List Char)
    (h : escapeQuotesChars l1 = escapeQuotesChars l2) : l1 = l2 := by
  induction l1 generalizing l2 with
  | nil =>
    cases l2 with
    | nil => rfl
    | cons c rest =>
      by_cases hc : c = '"' <;>
        simp [escapeQuotesChars, hc] at h
  | cons c1 r1 ih =>
    cases l2 with
    | nil =>
      by_cases hc : c1 = '"' <;>
        simp [escapeQuotesChars, hc] at h
    | cons c2 r2 =>
      by_cases hc1 : c1 = '"' <;> by_cases hc2 : c2 = '"'
      · subst hc1
        subst hc2
        simp only [escapeQuotesChars, if_pos, List.cons.injEq, true_and] at h
        rw [ih r2 h]
      · subst hc1
        simp only [escapeQuotesChars, if_pos, if_neg hc2,
          List.cons.injEq] at h
        exact absurd (by rw [← h.2]; rfl) (escapeQuotesChars_head_ne r2)
      · subst hc2
        simp only [escapeQuotesChars, if_pos, if_neg hc1,
          List.cons.injEq] at h
        exact absurd (by rw [h.2]; rfl) (escapeQuotesChars_head_ne r1)
      · simp only [escapeQuotesChars, if_neg hc1, if_neg hc2,
          List.cons.injEq] at h
        rw [h.1, ih r2 h.2]

/-! ## Parser invariants -/

/-- The recorded offset (`index` field) of a part. -/
def partIndex : TemplatePart → Nat
  | .literal i _ => i
  | .subst i _ _ _ => i

/-- Whether a part is a literal (`type === 'string'`). -/
def isLiteralPart : TemplatePart → Bool
  | .literal _ _ => true
  | .subst _ _ _ _ => false

/-- A literal part has non-empty text. -/
def literalNonEmpty : TemplatePart → Prop
  | .literal _ v => v.data ≠ []
  | .subst _ _ _ _ => True

/-- No variable of a substitution has both `explode` and `truncate` set. -/
def varsExclusive : TemplatePart → Prop
  | .literal _ _ => True
  | .subst _ _ vs _ =>
    ∀ v ∈ vs, ¬(v.explode = true ∧ v.truncate.isSome = true)

/-- The structural well-formedness of a compiled part list: offsets
strictly increase, literals are non-empty and maximal (no two adjacent
literals), and `explode`/`truncate` never coexist on a variable. -/
def goodParts (parts : List TemplatePart) : Prop :=
  List.Pairwise (fun a b => partIndex a < partIndex b) parts ∧
  (∀ p ∈ parts, literalNonEmpty p) ∧
  List.Chain'
    (fun a b => ¬(isLiteralPart a = true ∧ isLiteralPart b = true)) parts ∧
  (∀ p ∈ parts, varsExclusive p)

/-- The offset at which the in-progress part started. -/
def curIndex : CurPart → Nat
  | .literal i _ => i
  | .subst i _ _ => i

/-- The last already-pushed part, if any, is not a literal. -/
def lastNotLiteral (parts : List TemplatePart) : Prop :=
  ∀ p, parts.getLast? = some p → isLiteralPart p = false

/-- The scanner-loop invariant: the pushed parts are well formed and lie
strictly before the scan position; the in-progress part started before
the scan position and after every pushed part; an in-progress literal has
non-empty text and does not follow a pushed literal; with no in-progress
part the last pushed part is not a literal. -/
def ParserInv (index : Nat) (cur : Option CurPart)
    (parts : List TemplatePart) : Prop :=
  goodParts parts ∧
  (∀ p ∈ parts, partIndex p < index) ∧
  (∀ c, cur = some c → curIndex c < index ∧
    (∀ p ∈ parts, partIndex p < curIndex c) ∧
    (∀ i v, c = CurPart.literal i v → v ≠ [] ∧ lastNotLiteral parts)) ∧
  (cur = none → lastNotLiteral parts)

/-- Any element of a successful `mapExcept` result is the image of an
element of the input. -/
theorem mapExcept_ok_mem {a b : Type} (f : a → Except String b) :
    ∀ (l : List a) (res : List b), mapExcept f l = Except.ok res →
      ∀ y ∈ res, ∃ x ∈ l, f x = Except.ok y := by
  intro l
  induction l with
  | nil =>
    intro res h y hy
    simp only [mapExcept] at h
    cases h
    cases hy
  | cons x rest ih =>
    intro res h y hy
    simp only [mapExcept] at h
    split at h
    · cases h
    · rename_i z hz
      split at h
      · cases h
      · rename_i zs hzs
        cases h
        rcases List.mem_cons.mp hy with hy1 | hy2
        · exact ⟨x, List.mem_cons_self x rest, by rw [← hy1] at hz; exact hz⟩
        · rcases ih zs hzs y hy2 with ⟨x2, hx2, hfx2⟩
          exact ⟨x2, List.mem_cons_of_mem x hx2, hfx2⟩

/-- A variable accepted by the `}` handler never carries both a truncate
length and the explode flag (the handler's third check). -/
theorem processVariable_ok_exclusive (matchers : Matchers) (raw : List Char)
    (v : TVariable) (m : PMatcher)
    (h : processVariable matchers raw = Except.ok (v, m)) :
    ¬(v.explode = true ∧ v.truncate.isSome = true) := by
  simp only [processVariable] at h
  split at h
  · cases h
  · rename_i name2 truncate heq
    split at h
    · cases h
    · rename_i hguard
      split at h
      · cases h
      · split at h
        · cases h
        · rename_i m2 hm2
          cases h
          intro hcontra
          obtain ⟨h1, h2⟩ := hcontra
          dsimp only at h1 h2
          exact hguard (by rw [h1, h2]; rfl)

/-- Pushing a fresh, later-offset literal with non-empty text onto a good
part list after a non-literal keeps the list good. -/
theorem goodParts_push_literal (parts : List TemplatePart) (i : Nat)
    (v : List Char) (hgood : goodParts parts)
    (hidx : ∀ p ∈ parts, partIndex p < i) (hv : v ≠ [])
    (hlast : lastNotLiteral parts) :
    goodParts (parts ++ [TemplatePart.literal i (String.mk v)]) := by
  obtain ⟨hpair, hlit, hchain, hvars⟩ := hgood
  refine ⟨?_, ?_, ?_, ?_⟩
  · rw [List.pairwise_append]
    exact ⟨hpair, List.pairwise_singleton _ _,
      fun a ha b hb => by
        rw [List.mem_singleton.mp hb]
        exact hidx a ha⟩
  · intro p hp
    rcases List.mem_append.mp hp with h1 | h2
    · exact hlit p h1
    · rw [List.mem_singleton.mp h2]
      exact hv
  · rw [List.chain'_append]
    refine ⟨hchain, List.chain'_singleton _, fun x hx y hy => ?_⟩
    simp only [List.head?_cons, Option.mem_def, Option.some.injEq] at hy
    intro hcontra
    exact absurd hcontra.1 (by simp [hlast x hx])
  · intro p hp
    rcases List.mem_append.mp hp with h1 | h2
    · exact hvars p h1
    · rw [List.mem_singleton.mp h2]
      trivial

/-- Pushing a later-offset substitution whose variables respect the
explode/truncate exclusion onto a good part list keeps the list good. -/
theorem goodParts_push_subst (parts : List TemplatePart) (i : Nat)
    (mod : Option Char) (vs : List TVariable) (ms : List PMatcher)
    (hgood : goodParts parts) (hidx : ∀ p ∈ parts, partIndex p < i)
    (hvs : ∀ v ∈ vs, ¬(v.explode = true ∧ v.truncate.isSome = true)) :
    goodParts (parts ++ [TemplatePart.subst i mod vs ms]) := by
  obtain ⟨hpair, hlit, hchain, hvars⟩ := hgood
  refine ⟨?_, ?_, ?_, ?_⟩
  · rw [List.pairwise_append]
    exact ⟨hpair, List.pairwise_singleton _ _,
      fun a ha b hb => by
        rw [List.mem_singleton.mp hb]
        exact hidx a ha⟩
  · intro p hp
    rcases List.mem_append.mp hp with h1 | h2
    · exact hlit p h1
    · rw [List.mem_singleton.mp h2]
      trivial
  · rw [List.chain'_append]
    refine ⟨hchain, List.chain'_singleton _, fun x hx y hy => ?_⟩
    simp only [List.head?_cons, Option.mem_def, Option.some.injEq] at hy
    intro hcontra
    rw [← hy] at hcontra
    exact absurd hcontra.2 (by simp [isLiteralPart])
  · intro p hp
    rcases List.mem_append.mp hp with h1 | h2
    · exact hvars p h1
    · rw [List.mem_singleton.mp h2]
      exact hvs

/-- Appending an element makes it the last. -/
theorem getLast?_push {α : Type} (l : List α) (a : α) :
    (l ++ [a]).getLast? = some a := by
  induction l with
  | nil => rfl
  | cons x rest ih =>
    rw [List.cons_append, List.getLast?_cons, ih]
    rfl

/-- The scanner loop preserves the parser invariant and therefore only
ever returns well-formed part lists. -/
theorem templateParserAux_good (matchers : Matchers) :
    ∀ (chars : List Char) (index : Nat) (cur : Option CurPart)
      (parts res : List TemplatePart),
      templateParserAux matchers chars index cur parts = Except.ok res →
      ParserInv index cur parts → goodParts res := by
  intro chars
  induction chars with
  | nil =>
    intro index cur parts res h hinv
    obtain ⟨hgood, hidx, hcur, hnone⟩ := hinv
    simp only [templateParserAux] at h
    cases cur with
    | none =>
      cases h
      exact hgood
    | some cp =>
      cases cp with
      | literal i v =>
        cases h
        obtain ⟨hci, hpi, hlitv⟩ := hcur _ rfl
        obtain ⟨hv, hlast⟩ := hlitv i v rfl
        exact goodParts_push_literal parts i v hgood hpi hv hlast
      | subst i mod vars => cases h
  | cons c rest ih =>
    intro index cur parts res h hinv
    obtain ⟨hgood, hidx, hcur, hnone⟩ := hinv
    simp only [templateParserAux] at h
    by_cases hc1 : c = '{'
    · rw [if_pos hc1] at h
      cases cur with
      | none =>
        refine ih (index + 1) _ parts res h ⟨hgood, ?_, ?_, ?_⟩
        · exact fun p hp => Nat.lt_succ_of_lt (hidx p hp)
        · intro cp hcp
          cases hcp
          exact ⟨Nat.lt_succ_self index, hidx, fun i v hlit => by cases hlit⟩
        · intro habs
          cases habs
      | some cp =>
        cases cp with
        | subst i mod vars => cases h
        | literal i v =>
          obtain ⟨hci, hpi, hlitv⟩ := hcur _ rfl
          obtain ⟨hv, hlast⟩ := hlitv i v rfl
          refine ih (index + 1) _ _ res h
            ⟨goodParts_push_literal parts i v hgood hpi hv hlast, ?_, ?_, ?_⟩
          · intro p hp
            rcases List.mem_append.mp hp with h1 | h2
            · exact Nat.lt_succ_of_lt (hidx p h1)
            · rw [List.mem_singleton.mp h2]
              exact Nat.lt_succ_of_lt hci
          · intro cp hcp
            cases hcp
            refine ⟨Nat.lt_succ_self index, ?_, fun i2 v2 hlit => by cases hlit⟩
            intro p hp
            rcases List.mem_append.mp hp with h1 | h2
            · exact hidx p h1
            · rw [List.mem_singleton.mp h2]
              exact hci
          · intro habs
            cases habs
    · rw [if_neg hc1] at h
      by_cases hc2 : c = '}'
      · rw [if_pos hc2] at h
        cases cur with
        | none => cases h
        | some cp =>
          cases cp with
          | literal i v => cases h
          | subst i mod vars =>
            obtain ⟨hci, hpi, _⟩ := hcur _ rfl
            dsimp only at h
            by_cases hln : lastName vars = []
            · rw [if_pos hln] at h
              cases h
            · rw [if_neg hln] at h
              rcases hme : mapExcept (processVariable matchers) vars with e | pairs
              · simp only [hme] at h
                cases h
              · simp only [hme] at h
                refine ih (index + 1) none _ res h ⟨?_, ?_, ?_, ?_⟩
                · refine goodParts_push_subst parts i mod _ _ hgood hpi ?_
                  intro v hv
                  rcases List.mem_map.mp hv with ⟨pair, hpmem, hfst⟩
                  rcases mapExcept_ok_mem _ vars pairs hme pair hpmem with
                    ⟨raw, _, hproc⟩
                  rw [← hfst]
                  exact processVariable_ok_exclusive matchers raw pair.1 pair.2
                    hproc
                · intro p hp
                  rcases List.mem_append.mp hp with h1 | h2
                  · exact Nat.lt_succ_of_lt (hidx p h1)
                  · rw [List.mem_singleton.mp h2]
                    exact Nat.lt_succ_of_lt hci
                · intro cp hcp
                  cases hcp
                · intro _
                  intro p hp
                  rw [getLast?_push] at hp
                  cases hp
                  rfl
      · rw [if_neg hc2] at h
        cases cur with
        | none =>
          refine ih (index + 1) _ parts res h ⟨hgood, ?_, ?_, ?_⟩
          · exact fun p hp => Nat.lt_succ_of_lt (hidx p hp)
          · intro cp hcp
            cases hcp
            refine ⟨Nat.lt_succ_self index, hidx, ?_⟩
            intro i2 v2 hlit
            cases hlit
            exact ⟨by simp, hnone rfl⟩
          · intro habs
            cases habs
        | some cp =>
          cases cp with
          | literal i v =>
            obtain ⟨hci, hpi, hlitv⟩ := hcur _ rfl
            obtain ⟨hv, hlast⟩ := hlitv i v rfl
            refine ih (index + 1) _ parts res h ⟨hgood, ?_, ?_, ?_⟩
            · exact fun p hp => Nat.lt_succ_of_lt (hidx p hp)
            · intro cp hcp
              cases hcp
              refine ⟨Nat.lt_succ_of_lt hci, hpi, ?_⟩
              intro i2 v2 hlit
              cases hlit
              exact ⟨by simp, hlast⟩
            · intro habs
              cases habs
          | subst i mod vars =>
            obtain ⟨hci, hpi, _⟩ := hcur _ rfl
            dsimp only at h
            have hsubinv :
                ∀ mod2 vars2, ParserInv (index + 1)
                  (some (CurPart.subst i mod2 vars2)) parts := by
              intro mod2 vars2
              refine ⟨hgood, fun p hp => Nat.lt_succ_of_lt (hidx p hp), ?_, ?_⟩
              · intro cp hcp
                cases hcp
                exact ⟨Nat.lt_succ_of_lt hci, hpi,
                  fun i2 v2 hlit => by cases hlit⟩
              · intro habs
                cases habs
            by_cases hmodc :
                (mod.isNone && (vars.headD []).isEmpty &&
                  MODIFIERS.contains c) = true
            · rw [if_pos hmodc] at h
              exact ih (index + 1) _ parts res h (hsubinv _ _)
            · rw [if_neg hmodc] at h
              by_cases hcomma : c = ','
              · rw [if_pos hcomma] at h
                by_cases hln : lastName vars = []
                · rw [if_pos hln] at h
                  cases h
                · rw [if_neg hln] at h
                  exact ih (index + 1) _ parts res h (hsubinv _ _)
              · rw [if_neg hcomma] at h
                exact ih (index + 1) _ parts res h (hsubinv _ _)

/-- Every successfully compiled template yields a well-formed part
list. -/
theorem templateParser_good (template : String) (matchers : Matchers)
    (parts : List TemplatePart)
    (h : templateParser template matchers = Except.ok parts) :
    goodParts parts := by
  refine templateParserAux_good matchers template.toList 0 none [] parts h
    ⟨⟨List.Pairwise.nil, ?_, List.chain'_nil, ?_⟩, ?_, ?_, ?_⟩
  · intro p hp
    cases hp
  · intro p hp
    cases hp
  · intro p hp
    cases hp
  · intro cp hcp
    cases hcp
  · intro _
    intro p hp
    cases hp

/-! ## Expansion-engine lemmas -/

/-- Property lookup on a parameter map hits the first matching key. -/
theorem getParam_head (name : String) (pv : ParamVal) (rest : Params) :
    getParam ((name, pv) :: rest) name = pv := by
  unfold getParam
  simp [List.lookup]

/-- The element loop of the engine, on string elements under a matcher
that accepts strings and serializes them identically. -/
theorem mapExcept_serialize_vstr (m : PMatcher)
    (hvalid : ∀ s, m.isValid (BaseVal.vstr s) = true)
    (hser : ∀ s, m.serialize (BaseVal.vstr s) = s) :
    ∀ vs : List String,
      mapExcept (fun value =>
        if !m.isValid value then Except.error "E_INVALID_VARIABLE_VALUE"
        else Except.ok (m.serialize value)) (vs.map BaseVal.vstr) =
      Except.ok vs := by
  intro vs
  induction vs with
  | nil => rfl
  | cons v rest ih =>
    simp only [List.map_cons, mapExcept, hvalid, hser, Bool.not_true,
      Bool.false_eq_true, if_false, ih]

/-- The `",e1,e2…"` tail of a comma-joined rendering. -/
def commaTail : List String → String
  | [] => ""
  | e :: rest => "," ++ e ++ commaTail rest

/-- `Array.prototype.join(',')` in head/tail form. -/
theorem jsJoin_comma_eq (e0 : String) (es : List String) :
    jsJoin "," (e0 :: es) = e0 ++ commaTail es := by
  induction es generalizing e0 with
  | nil => simp [jsJoin, commaTail]
  | cons e1 es ih =>
    show e0 ++ "," ++ jsJoin "," (e1 :: es) = _
    rw [ih e1, commaTail]
    simp [String.append_assoc]

/-- The element-joining fold, after the first element, just appends
`","`-prefixed values when every later `variableNames` entry is empty. -/
theorem foldl_comma_tail (vns : List String)
    (h1 : ∀ i, 0 < i → vns.getD i "" = "") :
    ∀ (es : List String) (k : Nat), 0 < k → ∀ acc : String,
      (es.enumFrom k).foldl
        (fun str ie => str ++ (if 0 < ie.1 then "," else "")
          ++ vns.getD ie.1 "" ++ ie.2) acc = acc ++ commaTail es := by
  intro es
  induction es with
  | nil =>
    intro k hk acc
    simp [List.enumFrom, commaTail]
  | cons e es ih =>
    intro k hk acc
    simp only [List.enumFrom, List.foldl_cons]
    rw [if_pos hk, h1 k hk, ih (k + 1) (Nat.succ_pos k)]
    rw [commaTail]
    simp [String.append_assoc]

/-- The non-exploded element join: the name chunk appears only before the
first element and the elements are joined with a literal `","`. -/
theorem joinEscapedValues_nonexplode (sep : String) (vns : List String)
    (h1 : ∀ i, 0 < i → vns.getD i "" = "") (e0 : String) (es : List String) :
    joinEscapedValues false sep vns (e0 :: es) =
      vns.getD 0 "" ++ jsJoin "," (e0 :: es) := by
  unfold joinEscapedValues
  show ((e0 :: es).enumFrom 0).foldl _ "" = _
  simp only [List.enumFrom, List.foldl_cons]
  rw [jsJoin_comma_eq]
  have hstep : (("" : String) ++ (if (0 : Nat) < 0 then
      (if false then sep else ",") else "") ++ vns.getD 0 "" ++ e0) =
      vns.getD 0 "" ++ e0 := by
    simp
  rw [hstep]
  simp only [Bool.false_eq_true, if_false]
  rw [foldl_comma_tail vns h1 es 1 (Nat.succ_pos 0), String.append_assoc]

/-- Entry `0` of `variableNames` for a plain (non-exploded, un-truncated)
variable: the name chunk when the operator is named, empty otherwise. -/
theorem mkVariableNames_getD_zero (spec : ModSpec) (name : String)
    (keys : List String) (isEmpty : Bool) (n : Nat) (h : 0 < n) :
    (mkVariableNames spec { name := name, explode := false, truncate := none }
      keys false isEmpty n).getD 0 "" =
      if spec.named then
        (if spec.noEscape then doNotEscape name else escape name) ++
          (if spec.trimEmptyString && isEmpty then "" else "=")
      else "" := by
  unfold mkVariableNames
  rw [List.getD_eq_getElem?_getD, List.getElem?_map, List.getElem?_range h]
  simp

/-- Entries past `0` of `variableNames` are empty for a non-exploded
variable. -/
theorem mkVariableNames_getD_succ (spec : ModSpec) (name : String)
    (keys : List String) (isEmpty : Bool) (n : Nat) (i : Nat) (h : 0 < i) :
    (mkVariableNames spec { name := name, explode := false, truncate := none }
      keys false isEmpty n).getD i "" = "" := by
  unfold mkVariableNames
  rw [List.getD_eq_getElem?_getD, List.getElem?_map]
  by_cases hin : i < n
  · rw [List.getElem?_range hin]
    simp [Nat.pos_iff_ne_zero.mp h]
  · rw [List.getElem?_eq_none (by simpa using Nat.le_of_not_lt hin)]
    rfl

/-- Full reduction of the per-variable engine on a plain (non-exploded,
un-truncated) scalar string variable, for an arbitrary modifier row. -/
theorem serializeVariable_scalar_string (spec : ModSpec) (name s : String) :
    serializeVariable spec [(name, ParamVal.scalar (BaseVal.vstr s))]
      { name := name, explode := false, truncate := none } asString =
      Except.ok (some ((if spec.named then
        (if spec.noEscape then doNotEscape name else escape name) ++
          (if spec.trimEmptyString && (s == "") then "" else "=")
        else "") ++ (if spec.noEscape then doNotEscape s else escape s))) := by
  have hmap : mapExcept (fun value =>
      if !asString.isValid value then Except.error "E_INVALID_VARIABLE_VALUE"
      else Except.ok (asString.serialize value)) [BaseVal.vstr s] =
      Except.ok [s] := by
    simpa using mapExcept_serialize_vstr asString (fun _ => rfl) (fun _ => rfl)
      [s]
  have hmt : asString.mtype = MatcherType.value := rfl
  simp only [serializeVariable, getParam_head, hmap, hmt, isObjectVal,
    isArrayVal, flattenVal, recordKeys, List.map_cons, List.map_nil,
    List.isEmpty_cons, List.all_cons, List.all_nil, Bool.and_true,
    Bool.and_false, Bool.false_eq_true, if_false, Bool.not_false,
    Bool.or_false, Bool.false_or]
  rw [joinEscapedValues_nonexplode spec.separator _
    (fun i hi => mkVariableNames_getD_succ spec name [] _ _ i hi) _ [],
    mkVariableNames_getD_zero spec name [] _ _ (by simp)]
  simp [jsJoin]

/-- Full reduction of the per-variable engine on a plain (non-exploded,
un-truncated) string-list variable, for an arbitrary modifier row: the
name chunk is emitted once, and the elements are joined with a literal
`","`. -/
theorem serializeVariable_list_string (spec : ModSpec) (name : String)
    (v0 : String) (vs : List String) :
    serializeVariable spec
      [(name, ParamVal.list ((v0 :: vs).map BaseVal.vstr))]
      { name := name, explode := false, truncate := none } asStrings =
      Except.ok (some ((if spec.named then
        (if spec.noEscape then doNotEscape name else escape name) ++
          (if spec.trimEmptyString && (v0 :: vs).all (· == "") then ""
           else "=")
        else "") ++
        jsJoin "," ((v0 :: vs).map
          (fun t => if spec.noEscape then doNotEscape t else escape t)))) := by
  have hmap := mapExcept_serialize_vstr asStrings (fun _ => rfl)
    (fun _ => rfl) (v0 :: vs)
  simp only [List.map_cons] at hmap
  have hmt : asStrings.mtype = MatcherType.list := rfl
  have hc0 : (ParamVal.list (BaseVal.vstr v0 :: List.map BaseVal.vstr vs) =
      ParamVal.undef) = False := by simp
  have hc1 : (MatcherType.list = MatcherType.record ∧ ¬False) = False := by
    simp
  have hc2 : (True ∧ ¬True) = False := by simp
  have hc3 : (MatcherType.list = MatcherType.value ∧ True) = False := by simp
  simp only [serializeVariable, getParam_head, hmt, isObjectVal,
    isArrayVal, flattenVal, recordKeys, List.map_cons, List.map_nil,
    List.isEmpty_cons, List.all_cons, List.all_nil,
    Bool.and_true, Bool.and_false, Bool.true_and, Bool.false_and,
    Bool.false_eq_true, Bool.true_eq_false, Bool.not_false,
    Bool.not_true, Bool.or_false, Bool.false_or, if_true,
    hc0, hc1, hc2, hc3, if_false, hmap, List.map_id', List.length_cons]
  rw [joinEscapedValues_nonexplode spec.separator _
    (fun i hi => mkVariableNames_getD_succ spec name [] _ _ i hi),
    mkVariableNames_getD_zero spec name [] _ _ (by simp)]

/-- A variable whose bound parameter is null or missing contributes
nothing (`null` in the source, `none` here). -/
theorem serializeVariable_undef (spec : ModSpec) (params : Params)
    (v : TVariable) (m : PMatcher)
    (h : getParam params v.name = ParamVal.undef) :
    serializeVariable spec params v m = Except.ok none := by
  unfold serializeVariable
  rw [h]
  simp

/-- Dropping a skipped (null/missing) leading variable does not change a
substitution's output. -/
theorem serializeSubst_skip (spec : ModSpec) (params : Params)
    (v : TVariable) (m : PMatcher) (rest : List (TVariable × PMatcher))
    (h : getParam params v.name = ParamVal.undef) :
    serializeSubst spec params ((v, m) :: rest) =
      serializeSubst spec params rest := by
  have h1 : serializeVariables spec params ((v, m) :: rest) =
      match serializeVariables spec params rest with
      | .error e => .error e
      | .ok rs => .ok (none :: rs) := by
    rw [serializeVariables, serializeVariable_undef spec params v m h]
  unfold serializeSubst
  rw [h1]
  cases hrest : serializeVariables spec params rest with
  | error e => rfl
  | ok rs => simp

/-- A substitution all of whose variables are skipped contributes the
empty string with no prefix. -/
theorem serializeSubst_all_undef (spec : ModSpec) (params : Params) :
    ∀ pairs : List (TVariable × PMatcher),
      (∀ pr ∈ pairs, getParam params pr.1.name = ParamVal.undef) →
      serializeSubst spec params pairs = Except.ok "" := by
  intro pairs
  induction pairs with
  | nil => intro _; rfl
  | cons pr rest ih =>
    intro hall
    obtain ⟨v, m⟩ := pr
    rw [serializeSubst_skip spec params v m rest
      (hall _ (List.mem_cons_self _ _))]
    exact ih (fun pr2 h2 => hall pr2 (List.mem_cons_of_mem _ h2))

/-! ## Claims -/

/-- Claim C6: in the named expansion forms `;`, `?`, `&`, the `=` after
the emitted variable name is omitted exactly when the value is empty and
the operator's `trimEmptyString` flag holds, and that flag holds only for
`;`: a scalar string variable under a named operator always renders as
`name` `=`? `value` with the `=` controlled by that single condition, so
`{;empty}` with `empty = ""` gives `";empty"` while `{?empty}` gives
`"?empty="` and `{&empty}` gives `"&empty="`. -/
theorem claim_C6_named_equals (c : Char) (hc : c ∈ [';', '?', '&'])
    (name s : String) :
    (serializeVariable (MODIFIERS_SPECS c)
      [(name, ParamVal.scalar (BaseVal.vstr s))]
      { name := name, explode := false, truncate := none } asString =
      Except.ok (some (escape name ++
        (if (MODIFIERS_SPECS c).trimEmptyString && (s == "") then "" else "=")
        ++ escape s))) ∧
    ((MODIFIERS_SPECS c).trimEmptyString = true ↔ c = ';') ∧
    serializeTemplate "{;empty}" [("empty", asString)]
      [("empty", ParamVal.scalar (BaseVal.vstr ""))] = Except.ok ";empty" ∧
    serializeTemplate "{?empty}" [("empty", asString)]
      [("empty", ParamVal.scalar (BaseVal.vstr ""))] = Except.ok "?empty=" ∧
    serializeTemplate "{&empty}" [("empty", asString)]
      [("empty", ParamVal.scalar (BaseVal.vstr ""))] = Except.ok "&empty=" := by
  simp only [List.mem_cons, List.not_mem_nil, or_false] at hc
  rcases hc with hc | hc | hc <;> subst hc
  · have e1 : MODIFIERS_SPECS ';' =
        { prefixStr := ";", separator := ";", noEscape := false,
          named := true, trimEmptyString := true } := rfl
    rw [e1]
    refine ⟨?_, by decide, rfl, rfl, rfl⟩
    have hgen := serializeVariable_scalar_string (MODIFIERS_SPECS ';') name s
    rw [e1] at hgen
    simpa using hgen
  · have e1 : MODIFIERS_SPECS '?' =
        { prefixStr := "?", separator := "&", noEscape := false,
          named := true, trimEmptyString := false } := rfl
    rw [e1]
    refine ⟨?_, by decide, rfl, rfl, rfl⟩
    have hgen := serializeVariable_scalar_string (MODIFIERS_SPECS '?') name s
    rw [e1] at hgen
    simpa using hgen
  · have e1 : MODIFIERS_SPECS '&' =
        { prefixStr := "&", separator := "&", noEscape := false,
          named := true, trimEmptyString := false } := rfl
    rw [e1]
    refine ⟨?_, by decide, rfl, rfl, rfl⟩
    have hgen := serializeVariable_scalar_string (MODIFIERS_SPECS '&') name s
    rw [e1] at hgen
    simpa using hgen

/-- Witness for C6: the `;` operator at `empty = ""` (the `=` is
trimmed). -/
theorem claim_C6_witness :
    serializeVariable (MODIFIERS_SPECS ';')
      [("empty", ParamVal.scalar (BaseVal.vstr ""))]
      { name := "empty", explode := false, truncate := none } asString =
      Except.ok (some (escape "empty" ++
        (if (MODIFIERS_SPECS ';').trimEmptyString && ("" == "") then ""
         else "=") ++ escape "")) :=
  (claim_C6_named_equals ';' (by decide) "empty" "").1

/-- Claim C7 counterexample: the claim says empty contributions are
dropped and that a substitution whose variables are all empty emits no
prefix.  In fact a *present but empty-string* scalar is kept: `{/x}` with
`x = ""` expands to `"/"` (not `""`), and `{x,y}` with `x = ""`,
`y = "a"` expands to `",a"` (not `"a"`). -/
theorem claim_C7_counterexample :
    serializeTemplate "{/x}" [("x", asString)]
      [("x", ParamVal.scalar (BaseVal.vstr ""))] = Except.ok "/" ∧
    (Except.ok "/" : Except String String) ≠ Except.ok "" ∧
    serializeTemplate "{x,y}" [("x", asString), ("y", asString)]
      [("x", ParamVal.scalar (BaseVal.vstr "")),
       ("y", ParamVal.scalar (BaseVal.vstr "a"))] = Except.ok ",a" ∧
    (Except.ok ",a" : Except String String) ≠ Except.ok "a" := by
  refine ⟨rfl, ?_, rfl, ?_⟩ <;>
    · intro h
      injection h with h2
      exact absurd h2 (by decide)

/-- Claim C7 amended: a variable contributes nothing exactly when its
bound parameter is null or missing (a `null`/skip); dropping such a
variable leaves the substitution's output unchanged, and when *every*
variable is skipped the whole substitution contributes `""` with no
prefix.  Present variables' contributions — including empty strings — are
all kept and joined with the operator's separator, with the prefix
prepended exactly once: `{/x}` with `x = ""` gives `"/"`, `{x,y}` with
`x = ""`, `y = "a"` gives `",a"`, `{/x,y}` gives `"//a"`, and `O{x}X`
with `x` missing gives `"OX"`. -/
theorem claim_C7_amended :
    (∀ (spec : ModSpec) (params : Params) (v : TVariable) (m : PMatcher),
      getParam params v.name = ParamVal.undef →
      serializeVariable spec params v m = Except.ok none) ∧
    (∀ (spec : ModSpec) (params : Params) (v : TVariable) (m : PMatcher)
      (rest : List (TVariable × PMatcher)),
      getParam params v.name = ParamVal.undef →
      serializeSubst spec params ((v, m) :: rest) =
        serializeSubst spec params rest) ∧
    (∀ (spec : ModSpec) (params : Params)
      (pairs : List (TVariable × PMatcher)),
      (∀ pr ∈ pairs, getParam params pr.1.name = ParamVal.undef) →
      serializeSubst spec params pairs = Except.ok "") ∧
    serializeTemplate "{/x}" [("x", asString)]
      [("x", ParamVal.scalar (BaseVal.vstr ""))] = Except.ok "/" ∧
    serializeTemplate "{x,y}" [("x", asString), ("y", asString)]
      [("x", ParamVal.scalar (BaseVal.vstr "")),
       ("y", ParamVal.scalar (BaseVal.vstr "a"))] = Except.ok ",a" ∧
    serializeTemplate "{/x,y}" [("x", asString), ("y", asString)]
      [("x", ParamVal.scalar (BaseVal.vstr "")),
       ("y", ParamVal.scalar (BaseVal.vstr "a"))] = Except.ok "//a" ∧
    serializeTemplate "O{x}X" [("x", asString)] [("x", ParamVal.undef)] =
      Except.ok "OX" :=
  ⟨serializeVariable_undef, serializeSubst_skip, serializeSubst_all_undef,
    rfl, rfl, rfl, rfl⟩

/-- Witness for C7 at a one-variable substitution bound to `undefined`. -/
theorem claim_C7_witness :
    serializeSubst DEFAULT_SPECS [("q", ParamVal.undef)]
      [({ name := "q", explode := false, truncate := none }, asString)] =
      Except.ok "" :=
  claim_C7_amended.2.2.1 DEFAULT_SPECS [("q", ParamVal.undef)]
    [({ name := "q", explode := false, truncate := none }, asString)]
    (fun pr hpr => by rw [List.mem_singleton.mp hpr]; rfl)

/-- Claim C9: for a non-exploded list (or record) variable under a named
operator, the `name=` chunk is emitted only before the first element and
all subsequent elements are joined with a literal `","` without repeating
the name: a list `[red, green, blue]` bound to `list` under `;`
serializes as `";list=red,green,blue"` (never
`";list=red;list=green;list=blue"`), and a record's interleaved key/value
items behave the same (`{;keys}` gives `";keys=a,x,b,y"`). -/
theorem claim_C9_nonexploded_named (c : Char) (hc : c ∈ [';', '?', '&'])
    (name v0 : String) (vs : List String) :
    (serializeVariable (MODIFIERS_SPECS c)
      [(name, ParamVal.list ((v0 :: vs).map BaseVal.vstr))]
      { name := name, explode := false, truncate := none } asStrings =
      Except.ok (some ((escape name ++
        (if (MODIFIERS_SPECS c).trimEmptyString && (v0 :: vs).all (· == "")
         then "" else "=")) ++ jsJoin "," ((v0 :: vs).map escape)))) ∧
    serializeTemplate "{;list}" [("list", asStrings)]
      [("list", ParamVal.list [BaseVal.vstr "red", BaseVal.vstr "green",
        BaseVal.vstr "blue"])] = Except.ok ";list=red,green,blue" ∧
    serializeTemplate "{;keys}" [("keys", asKeyedStrings)]
      [("keys", ParamVal.record [("a", BaseVal.vstr "x"),
        ("b", BaseVal.vstr "y")])] = Except.ok ";keys=a,x,b,y" ∧
    (Except.ok ";list=red,green,blue" : Except String String) ≠
      Except.ok ";list=red;list=green;list=blue" := by
  have hne : (Except.ok ";list=red,green,blue" : Except String String) ≠
      Except.ok ";list=red;list=green;list=blue" := by
    intro h
    injection h with h2
    exact absurd h2 (by decide)
  simp only [List.mem_cons, List.not_mem_nil, or_false] at hc
  rcases hc with hc | hc | hc <;> subst hc
  · have e1 : MODIFIERS_SPECS ';' =
        { prefixStr := ";", separator := ";", noEscape := false,
          named := true, trimEmptyString := true } := rfl
    rw [e1]
    refine ⟨?_, rfl, rfl, hne⟩
    have hgen := serializeVariable_list_string (MODIFIERS_SPECS ';') name v0 vs
    rw [e1] at hgen
    simpa using hgen
  · have e1 : MODIFIERS_SPECS '?' =
        { prefixStr := "?", separator := "&", noEscape := false,
          named := true, trimEmptyString := false } := rfl
    rw [e1]
    refine ⟨?_, rfl, rfl, hne⟩
    have hgen := serializeVariable_list_string (MODIFIERS_SPECS '?') name v0 vs
    rw [e1] at hgen
    simpa using hgen
  · have e1 : MODIFIERS_SPECS '&' =
        { prefixStr := "&", separator := "&", noEscape := false,
          named := true, trimEmptyString := false } := rfl
    rw [e1]
    refine ⟨?_, rfl, rfl, hne⟩
    have hgen := serializeVariable_list_string (MODIFIERS_SPECS '&') name v0 vs
    rw [e1] at hgen
    simpa using hgen

/-- Witness for C9: the `;` operator on the list `[red, green, blue]`. -/
theorem claim_C9_witness :
    serializeVariable (MODIFIERS_SPECS ';')
      [("list", ParamVal.list ((("red" : String) :: ["green", "blue"]).map
        BaseVal.vstr))]
      { name := "list", explode := false, truncate := none } asStrings =
      Except.ok (some ((escape "list" ++
        (if (MODIFIERS_SPECS ';').trimEmptyString &&
          (("red" : String) :: ["green", "blue"]).all (· == "") then ""
         else "=")) ++
        jsJoin "," ((("red" : String) :: ["green", "blue"]).map escape))) :=
  (claim_C9_nonexploded_named ';' (by decide) "list" "red"
    ["green", "blue"]).1

/-- Claim C1: the claim states that `asBoolean.parse` succeeds exactly on
the literal tokens `"true"`/`"false"` (returning the matching boolean) and
errors on everything else.  The code does the opposite: it raises
`E_CANNOT_PARSE_BOOLEAN` precisely when the input is one of the two tokens
— contradicting the error's own name — and returns a boolean (necessarily
`false`) for every other string.  This theorem records the code's actual
behavior: the error is raised iff the input is `"true"` or `"false"`, and
a non-token input such as `"yes"` parses "successfully" to `false`. -/
theorem claim_C1_boolean_parse_inverted :
    (∀ s : String,
      asBooleanParse s = Except.error "E_CANNOT_PARSE_BOOLEAN" ↔
        (s = "true" ∨ s = "false")) ∧
    asBooleanParse "yes" = Except.ok false ∧
    asBooleanParse "true" = Except.error "E_CANNOT_PARSE_BOOLEAN" ∧
    asBooleanParse "false" = Except.error "E_CANNOT_PARSE_BOOLEAN" := by
  refine ⟨fun s => ?_, rfl, rfl, rfl⟩
  unfold asBooleanParse
  split
  · rename_i hcond
    exact iff_of_true rfl hcond
  · rename_i hcond
    exact iff_of_false (fun he => Except.noConfusion he) hcond

/-- Claim C2: the claim states that `asNumber.parse` raises
`E_NOT_A_CANONICAL_NUMBER_REPRESENTATION` whenever the re-stringified
parsed value differs from the input (e.g. for `"1e3"` or leading-zero
forms).  The code instead compares `s.toString() !== s` where `s` is the
*input string*, which is always false, so the canonical-representation
error is unreachable: `"1e3"` and `"007"` parse successfully (to `1000`
and `7`), only genuinely non-numeric text raises `E_NOT_A_NUMBER`, and no
input whatsoever produces the canonical-representation error. -/
theorem claim_C2_canonical_check_dead :
    asNumberParse "1e3" = Except.ok (JSNum.finite 1000) ∧
    asNumberParse "007" = Except.ok (JSNum.finite 7) ∧
    asNumberParse "abc" = Except.error "E_NOT_A_NUMBER" ∧
    ∀ s : String, isCanonicalError (asNumberParse s) = false := by
  refine ⟨?_, ?_, rfl, fun s => ?_⟩
  · have h : (((1 : ℚ) + 0 / 10 ^ 0) * 10 ^ (3 : ℤ)) = 1000 := by norm_num
    calc asNumberParse "1e3"
        = Except.ok (JSNum.finite (((1 : ℚ) + 0 / 10 ^ 0) * 10 ^ (3 : ℤ))) := rfl
      _ = Except.ok (JSNum.finite 1000) := by rw [h]
  · have h : (((7 : ℚ) + 0 / 10 ^ 0) * 10 ^ (0 : ℤ)) = 7 := by norm_num
    calc asNumberParse "007"
        = Except.ok (JSNum.finite (((7 : ℚ) + 0 / 10 ^ 0) * 10 ^ (0 : ℤ))) := rfl
      _ = Except.ok (JSNum.finite 7) := by rw [h]
  · unfold asNumberParse
    cases parseFloatModel s with
    | none => rfl
    | some x => simp [stringToString, isCanonicalError]

/-- Claim C3 counterexample: the claim says a variable name `"a:1:2"` must
be rejected with `E_BAD_SUBSTITUTION_TRUNCATE` because the whole suffix
after the first `:` (`"1:2"`) is not all-digits.  The code only examines
`name.split(':')[1]` — the segment `"1"` between the first and second
colons — so `"{a:1:2}"` compiles successfully, with `truncate = 1` and
everything after the second colon silently discarded. -/
theorem claim_C3_counterexample :
    templateParser "{a:1:2}" [("a", asString)] =
      Except.ok [TemplatePart.subst 0 none
        [{ name := "a", explode := false, truncate := some 1 }] [asString]] ∧
    templateParser "{a:1:2}" [("a", asString)] ≠
      Except.error "E_BAD_SUBSTITUTION_TRUNCATE" := by
  have h : templateParser "{a:1:2}" [("a", asString)] =
      Except.ok [TemplatePart.subst 0 none
        [{ name := "a", explode := false, truncate := some 1 }] [asString]] := rfl
  refine ⟨h, ?_⟩
  rw [h]
  intro hcontra
  cases hcontra

/-- Claim C3 amended: when a variable name contains `:`, the *segment
between the first and second colons* (`split(':')[1]`) must be all-digits,
else `E_BAD_SUBSTITUTION_TRUNCATE`; on success that segment's value
becomes `truncate` and the prefix before the first colon becomes the name,
any text after a second colon being discarded.  Stated over an arbitrary
decomposition of the raw name around its first one or two colons. -/
theorem claim_C3_amended (pre suf mid post : List Char)
    (hpre : pre.contains ':' = false) :
    (suf.contains ':' = false →
      applyTruncate (pre ++ ':' :: suf) =
        (if isDigits suf then Except.ok (pre, some (digitsToNat suf))
         else Except.error "E_BAD_SUBSTITUTION_TRUNCATE")) ∧
    (mid.contains ':' = false →
      applyTruncate (pre ++ ':' :: (mid ++ ':' :: post)) =
        (if isDigits mid then Except.ok (pre, some (digitsToNat mid))
         else Except.error "E_BAD_SUBSTITUTION_TRUNCATE")) := by
  constructor
  · intro hsuf
    unfold applyTruncate
    rw [if_pos (contains_colon_append pre suf),
      splitOnColon_append pre suf hpre, splitOnColon_no_colon suf hsuf]
    rfl
  · intro hmid
    unfold applyTruncate
    rw [if_pos (contains_colon_append pre (mid ++ ':' :: post)),
      splitOnColon_append pre (mid ++ ':' :: post) hpre,
      splitOnColon_append mid post hmid]
    rfl

/-- Witness for C3 amended, at the counterexample's own input
`"a:1:2" = ['a'] ++ ':' :: (['1'] ++ ':' :: ['2'])`. -/
theorem claim_C3_amended_witness :
    applyTruncate "a:1:2".toList = Except.ok ("a".toList, some 1) := by
  have h := (claim_C3_amended ['a'] [] ['1'] ['2'] (by decide)).2 (by decide)
  simpa using h

/-- Claim C5 counterexample: the claim states that the reserved-safe
escaping leaves every character of `:/?#[]@!$&'()*+,;=` unescaped and
re-decodes any double-encoded reserved triplet, so an input containing
`"%3B"` keeps that single triplet and never yields a double-encoded
`%25XX`.  In fact `doNotEscape "%3B" = "%253B"`: the triplet is
double-encoded (the re-decode regex `/%25[0-9][0-9]/` requires two
*decimal digits* and never matches `3B`), and the single triplet `%3B` no
longer occurs in the output; moreover `[` is escaped to `%5B`. -/
theorem claim_C5_counterexample :
    doNotEscape "%3B" = "%253B" ∧
    ¬ List.IsInfix "%3B".toList "%253B".toList ∧
    doNotEscape "[" = "%5B" := by
  exact ⟨rfl, by decide, rfl⟩

/-- Claim C5 amended: the `+`/`#` escaping leaves every reserved character
*except* `[` and `]` unescaped (those two become `%5B`/`%5D`), and
re-decodes a double-encoded sequence `%25XY` back to `%XY` only when both
`X` and `Y` are decimal digits — so `"%35"` survives as a single triplet
while `"%3B"` comes out double-encoded — and reserved expansion leaves
structural characters intact: `{+path}/here` with `path = "/foo/bar"`
expands to `"/foo/bar/here"`. -/
theorem claim_C5_amended :
    (List.all
      [':', '/', '?', '#', '@', '!', '$', '&', Char.ofNat 39, '(', ')', '*',
        '+', ',', ';', '=']
      (fun c => doNotEscape (String.singleton c) == String.singleton c)) =
        true ∧
    doNotEscape "[" = "%5B" ∧
    doNotEscape "]" = "%5D" ∧
    doNotEscape "%35" = "%35" ∧
    doNotEscape "%3B" = "%253B" ∧
    serializeTemplate "{+path}/here" [("path", asString)]
      [("path", ParamVal.scalar (BaseVal.vstr "/foo/bar"))] =
      Except.ok "/foo/bar/here" := by
  exact ⟨by decide, rfl, rfl, rfl, rfl, rfl⟩

/-- Claim C8: `URITemplate.toString` reproduces the original template text
verbatim inside `["…" URITemplate]` with internal double quotes escaped,
and the original text is recoverable: on (valid) templates the description
determines the template string. -/
theorem claim_C8_describe_roundtrip (t1 t2 : String) (m1 m2 : Matchers)
    (p1 p2 : List TemplatePart)
    (h1 : templateParser t1 m1 = Except.ok p1)
    (h2 : templateParser t2 m2 = Except.ok p2) :
    (uriTemplateToString t1 =
      "[\"" ++ String.mk (escapeQuotesChars t1.toList) ++ "\" URITemplate]") ∧
    (uriTemplateToString t1 = uriTemplateToString t2 ↔ t1 = t2) := by
  constructor
  · rfl
  · constructor
    · intro h
      unfold uriTemplateToString at h
      have hlists : ('[' :: '"' :: escapeQuotesChars t1.toList) ++
          ('"' :: " URITemplate]".toList) =
          ('[' :: '"' :: escapeQuotesChars t2.toList) ++
          ('"' :: " URITemplate]".toList) := by
        injection h
      have hpre := List.append_cancel_right hlists
      simp only [List.cons.injEq, true_and] at hpre
      have hdata := escapeQuotesChars_injective _ _ hpre
      have : t1.data = t2.data := hdata
      cases t1
      cases t2
      simp only at this
      rw [this]
    · intro h
      rw [h]

/-- Claim C4: compilation rejects a variable carrying both a `:N`
truncate suffix and a trailing `*` with `E_BAD_SUBSTITUTION_TRUNCATE`
(in particular `"{hello:2*}"`), so in every successfully compiled
template no variable has both `explode` and `truncate` set, and
`truncate` is a non-negative count whenever present. -/
theorem claim_C4_explode_truncate_exclusive :
    (∀ (template : String) (matchers : Matchers)
      (parts : List TemplatePart),
      templateParser template matchers = Except.ok parts →
      ∀ p ∈ parts, varsExclusive p ∧
        (∀ i mod vs ms, p = TemplatePart.subst i mod vs ms →
          ∀ v ∈ vs, ∀ n, v.truncate = some n → 0 ≤ n)) ∧
    templateParser "{hello:2*}" [("hello", asString)] =
      Except.error "E_BAD_SUBSTITUTION_TRUNCATE" := by
  constructor
  · intro template matchers parts h p hp
    refine ⟨(templateParser_good template matchers parts h).2.2.2 p hp, ?_⟩
    intro i mod vs ms hpe v hv n hn
    exact Nat.zero_le n
  · rfl

/-- Witness for C4 at the concrete template `"{x:3}"`, whose single
compiled variable carries `truncate = 3` and no explode flag. -/
theorem claim_C4_witness :
    varsExclusive (TemplatePart.subst 0 none
      [{ name := "x", explode := false, truncate := some 3 }] [asString]) := by
  have h := claim_C4_explode_truncate_exclusive.1 "{x:3}" [("x", asString)]
    [TemplatePart.subst 0 none
      [{ name := "x", explode := false, truncate := some 3 }] [asString]]
    rfl
    (TemplatePart.subst 0 none
      [{ name := "x", explode := false, truncate := some 3 }] [asString])
    (List.mem_singleton.mpr rfl)
  exact h.1

/-- Claim C10: on every template accepted by `templateParser`, the
returned parts have strictly increasing recorded offsets, every literal
part has non-empty text, and no two consecutive parts are both literals
(literal spans are maximal). -/
theorem claim_C10_parser_invariants (template : String)
    (matchers : Matchers) (parts : List TemplatePart)
    (h : templateParser template matchers = Except.ok parts) :
    List.Pairwise (fun a b => partIndex a < partIndex b) parts ∧
    (∀ p ∈ parts, literalNonEmpty p) ∧
    List.Chain'
      (fun a b => ¬(isLiteralPart a = true ∧ isLiteralPart b = true))
      parts := by
  obtain ⟨h1, h2, h3, _⟩ := templateParser_good template matchers parts h
  exact ⟨h1, h2, h3⟩

/-- Witness for C10 at the concrete template `"a{x}b"`. -/
theorem claim_C10_witness :
    List.Pairwise (fun a b => partIndex a < partIndex b)
      [TemplatePart.literal 0 "a",
       TemplatePart.subst 1 none
         [{ name := "x", explode := false, truncate := none }] [asString],
       TemplatePart.literal 4 "b"] ∧
    (∀ p ∈
      [TemplatePart.literal 0 "a",
       TemplatePart.subst 1 none
         [{ name := "x", explode := false, truncate := none }] [asString],
       TemplatePart.literal 4 "b"], literalNonEmpty p) ∧
    List.Chain'
      (fun a b => ¬(isLiteralPart a = true ∧ isLiteralPart b = true))
      [TemplatePart.literal 0 "a",
       TemplatePart.subst 1 none
         [{ name := "x", explode := false, truncate := none }] [asString],
       TemplatePart.literal 4 "b"] :=
  claim_C10_parser_invariants "a{x}b" [("x", asString)]
    [TemplatePart.literal 0 "a",
     TemplatePart.subst 1 none
       [{ name := "x", explode := false, truncate := none }] [asString],
     TemplatePart.literal 4 "b"] rfl

/-- Witness for C8 at the concrete valid template `"/ping"`. -/
theorem claim_C8_witness :
    templateParser "/ping" [] = Except.ok [TemplatePart.literal 0 "/ping"] ∧
    (uriTemplateToString "/ping" = uriTemplateToString "/ping" ↔
      "/ping" = "/ping") :=
  ⟨rfl, (claim_C8_describe_roundtrip "/ping" "/ping" [] []
    [TemplatePart.literal 0 "/ping"] [TemplatePart.literal 0 "/ping"]
    rfl rfl).2⟩

end UriTemplate
